import Mathlib

/-!
Verification of the intelligent-complaint-analysis RAG pipeline.

Python strings are embedded as `List Char`; the helper functions below
mirror the Python string operations used by the repository sources
(`str.lower`, `str.strip`, `str.split`, `re.sub` on the literal and
whitespace patterns that actually occur).  Fallible external calls are
embedded as `Except`-returning functions; definitions recurse on explicit
fuel where the Python loop consumes a variable number of characters, so
that every definition evaluates by kernel reduction.
-/

namespace ComplaintRag

/-- Python whitespace class `\s` (space, tab, newline, CR, VT, FF). -/
def wsB (c : Char) : Bool :=
  c = ' ' || c = '\t' || c = '\n' || c = '\r' || c.val = 11 || c.val = 12

/-- Python `str.lower()` on ASCII text. -/
def lowerL (s : List Char) : List Char := s.map Char.toLower

/-- Python `str.strip()`: drop leading and trailing whitespace. -/
def stripL (s : List Char) : List Char :=
  ((s.dropWhile wsB).reverse.dropWhile wsB).reverse

/-- Worker for `collapseWs`: the flag records whether the previous kept
character position was inside a whitespace run. -/
def collapseWsGo : Bool → List Char → List Char
  | _, [] => []
  | prevWs, c :: cs =>
    if wsB c then
      if prevWs then collapseWsGo true cs
      else ' ' :: collapseWsGo true cs
    else c :: collapseWsGo false cs

/-- Python `re.sub(r"\s+", " ", s)`: each whitespace run becomes one space. -/
def collapseWs (s : List Char) : List Char := collapseWsGo false s

/-- `isPrefixB pat s` decides whether `pat` is a prefix of `s`. -/
def isPrefixB : List Char → List Char → Bool
  | [], _ => true
  | _ :: _, [] => false
  | a :: as, b :: bs => a = b && isPrefixB as bs

/-- Python `pat in s`: substring containment. -/
def containsB (pat : List Char) : List Char → Bool
  | [] => isPrefixB pat []
  | c :: cs => isPrefixB pat (c :: cs) || containsB pat cs

/-- Worker for `removeAll`; the fuel starts at the text length and each
step consumes at least one character, so the fuel never runs out. -/
def removeAllGo (pat : List Char) : Nat → List Char → List Char
  | 0, s => s
  | _ + 1, [] => []
  | fuel + 1, c :: cs =>
    if pat ≠ [] ∧ isPrefixB pat (c :: cs) = true then
      removeAllGo pat fuel ((c :: cs).drop pat.length)
    else
      c :: removeAllGo pat fuel cs

/-- Python `re.sub(pat, "", s)` for a literal (metacharacter-free) pattern:
delete every left-to-right non-overlapping occurrence of `pat`. -/
def removeAll (pat s : List Char) : List Char := removeAllGo pat s.length s

/-- Worker for `wordsL`: accumulates the current word reversed. -/
def wordsAux : List Char → List Char → List (List Char)
  | acc, [] => if acc.isEmpty then [] else [acc.reverse]
  | acc, c :: cs =>
    if wsB c then
      if acc.isEmpty then wordsAux [] cs else acc.reverse :: wordsAux [] cs
    else wordsAux (c :: acc) cs

/-- Python `str.split()` with no argument: whitespace-delimited tokens,
empty tokens dropped. -/
def wordsL (s : List Char) : List (List Char) := wordsAux [] s

/-- Python `len(s.split())`: the word count used by the length filters. -/
def wordCount (s : List Char) : Nat := (wordsL s).length

/-- Characters kept by `preprocessing.clean_text` (`[a-z0-9\s]` after
lower-casing). -/
def allowedPre (c : Char) : Bool :=
  (('a' ≤ c && c ≤ 'z') || ('0' ≤ c && c ≤ '9') || wsB c)

/-- Characters kept by `prep.clean_text` (`[a-zA-Z0-9\s]`). -/
def allowedPrep (c : Char) : Bool :=
  (('a' ≤ c && c ≤ 'z') || ('A' ≤ c && c ≤ 'Z') || ('0' ≤ c && c ≤ '9') || wsB c)

/-- `clean_text` from `src/preprocessing.py`: lower-case, collapse
whitespace runs to one space, delete characters outside `[a-z0-9\s]`,
strip the edges.  It removes no boilerplate phrases. -/
def clean_text_pp (s : List Char) : List Char :=
  stripL ((collapseWs (lowerL s)).filter allowedPre)

/-- The boilerplate pattern list of `clean_text` in `src/prep.py`; every
entry is a literal phrase (no regex metacharacters). -/
def boilerplate_patterns : List (List Char) :=
  [ "consumer complaint narrative".data,
    "the following is a narrative that was provided by the consumer to the cfpb".data,
    "i am writing to file a complaint".data,
    "i am writing to express my concern".data,
    "this letter is to inform you".data,
    "to whom it may concern".data,
    "this complaint is regarding".data,
    "i would like to report".data,
    "i would like to file a complaint".data,
    "i would like to complain".data,
    "i am writing you this letter to inform you".data,
    "i am writing this letter to you for the reason of".data ]

/-- `clean_text` from `src/prep.py`: lower-case, delete each boilerplate
pattern in order, delete characters outside `[a-zA-Z0-9\s]`, collapse
whitespace, strip the edges. -/
def clean_text_prep (s : List Char) : List Char :=
  stripL (collapseWs ((boilerplate_patterns.foldl
    (fun acc p => removeAll p acc) (lowerL s)).filter allowedPrep))

/-- `TARGET_PRODUCTS` from `src/complaints_modular_cleaning_eda.py`,
in dict insertion order. -/
def TARGET_PRODUCTS : List (List Char × List (List Char)) :=
  [ ("Credit card".data, ["credit card".data, "prepaid card".data]),
    ("Personal loan".data, ["personal loan".data, "consumer loan".data]),
    ("Buy Now, Pay Later".data, ["buy now pay later".data, "bnpl".data]),
    ("Savings account".data, ["savings account".data, "bank account".data]),
    ("Money transfer".data, ["money transfer".data, "wire transfer".data]) ]

/-- `filter_products` from `src/complaints_modular_cleaning_eda.py`:
lower-case the raw product and return the first standardized category one
of whose variants is a substring; `none` means excluded. -/
def filter_products (product : List Char) : Option (List Char) :=
  (TARGET_PRODUCTS.find?
    (fun t => t.2.any (fun v => containsB v (lowerL product)))).map (fun t => t.1)

/-- The credit-card trigger test of `map_to_target_product` (applied to
the lower-cased product). -/
def ccMatch (p : List Char) : Bool :=
  containsB "credit card".data p || containsB "prepaid card".data p

/-- The personal-loan trigger test of `map_to_target_product`. -/
def loanMatch (p : List Char) : Bool :=
  ["personal loan".data, "consumer loan".data, "payday loan".data,
   "title loan".data, "advance loan".data, "vehicle loan".data].any
    (fun t => containsB t p)

/-- The savings trigger test of `map_to_target_product`. -/
def savingsMatch (p : List Char) : Bool :=
  containsB "checking or savings".data p || containsB "bank account".data p ||
    containsB "savings".data p

/-- The money-transfer trigger test of `map_to_target_product`. -/
def moneyMatch (p : List Char) : Bool :=
  containsB "money transfer".data p || containsB "virtual currency".data p ||
    containsB "money service".data p

/-- The BNPL narrative test of `map_to_target_product` (applied to the
lower-cased narrative). -/
def bnplMatch (n : List Char) : Bool :=
  containsB "buy now pay later".data n || containsB "bnpl".data n

/-- `map_to_target_product` from `src/preprocessing.py`: ordered trigger
chain over the lower-cased product; inside the personal-loan branch the
lower-cased narrative decides between BNPL and Personal loan. -/
def map_to_target_product (product narrative : List Char) : Option (List Char) :=
  if ccMatch (lowerL product) then some "Credit card".data
  else if loanMatch (lowerL product) then
    if bnplMatch (lowerL narrative) then some "Buy Now, Pay Later".data
    else some "Personal loan".data
  else if savingsMatch (lowerL product) then some "Savings account".data
  else if moneyMatch (lowerL product) then some "Money transfer".data
  else none

/-- The five standard categories of `map_to_target_product`. -/
def standardCategories : List (List Char) :=
  ["Credit card".data, "Buy Now, Pay Later".data, "Personal loan".data,
   "Savings account".data, "Money transfer".data]

/-- `map_to_target_product` consults the narrative exactly when the
lower-cased product misses the credit-card triggers but hits a
personal-loan trigger. -/
def narrativeSensitive (product : List Char) : Bool :=
  !ccMatch (lowerL product) && loanMatch (lowerL product)

/-- The per-row keep/transform step of `process_complaints` in
`src/complaints_modular_cleaning_eda.py` (lines 78-84) for a row whose
narrative is present, with the cleaning function abstracted as a
parameter (its regex engine is external): map the product, clean the
narrative, keep the row when `10 < word_count < 1000`. -/
def processRow_mod (cleaner : List Char → List Char)
    (product narrative : List Char) : Option (List Char × List Char) :=
  match filter_products product with
  | none => none
  | some prod =>
    if 10 < wordCount (cleaner narrative) ∧ wordCount (cleaner narrative) < 1000
    then some (prod, cleaner narrative) else none

/-- The per-row keep/transform step of `run_preprocessing` in
`src/preprocessing.py` (lines 70-89) for a row whose narrative is
present: map product (narrative-aware), clean with
`preprocessing.clean_text`, keep the row when the raw stripped narrative
exceeds 30 characters and `10 < word_count < 1000`. -/
def processRow_pre (product narrative : List Char) :
    Option (List Char × List Char) :=
  match map_to_target_product product narrative with
  | none => none
  | some prod =>
    if 30 < (stripL narrative).length ∧ 10 < wordCount (clean_text_pp narrative)
        ∧ wordCount (clean_text_pp narrative) < 1000 then
      some (prod, clean_text_pp narrative)
    else none

/-- A LangChain `Document` as built by `src/embed_and_index.py`:
the chunk text plus its metadata fields. -/
structure Doc where
  page_content : List Char
  complaint_id : List Char
  product : List Char
  original_text_length : Nat
deriving DecidableEq

/-- The decoding configuration passed to the HF pipeline call in
`generate_answer` (`max_new_tokens`, `do_sample`, `truncation`). -/
structure GenConfig where
  max_new_tokens : Nat
  do_sample : Bool
  truncation : Bool
deriving DecidableEq

/-- Model of the Hugging Face text2text pipeline object: prompt,
decoding configuration and ambient RNG seed in, generated text out;
`Except.error` models a raised exception. -/
def LLM : Type := List Char → GenConfig → Nat → Except (List Char) (List Char)

/-- Model of the loaded FAISS store: its `similarity_search` method,
which may raise. -/
structure DB where
  search : List Char → Nat → Except (List Char) (List Doc)

/-- The fixed answer of `generate_answer` when the pipeline argument is
falsy. -/
def notInitializedAnswer : List Char := "LLM generator not initialized.".data

/-- The fixed insufficient-context answer of `generate_answer`. -/
def insufficientAnswer : List Char :=
  "I don\x27t have enough information from the retrieved context to answer this question.".data

/-- The fixed user-safe answer returned when the generation call raises. -/
def genErrorAnswer : List Char := "An error occurred during answer generation.".data

/-- The decoding arguments of the pipeline call in `generate_answer`:
`max_new_tokens=200, do_sample=False, truncation=True`. -/
def genCfg : GenConfig := ⟨200, false, true⟩

/-- `prompt_template.format(context=..., question=...)` from
`generate_answer` in `src/rag_pipeline.py`. -/
def formatted_prompt (context question : List Char) : List Char :=
  "You are a financial analyst assistant for CrediTrust.\nYour task is to answer questions about customer complaints.\nUse ONLY the following retrieved complaint excerpts to formulate your answer.\nIf the context doesn\x27t contain the answer, state that you don\x27t have enough information.\n\nContext:\n".data
    ++ context ++ "\n\nQuestion: ".data ++ question ++ "\nAnswer:".data

/-- `generate_answer` from `src/rag_pipeline.py` (lines 98-138).  The
second component instruments the model boundary: the list of
(prompt, decoding configuration) pairs with which the pipeline object was
invoked (empty on the two short-circuit paths, a single call otherwise;
the call is recorded on the exception path too, since the exception is
raised by the call itself). -/
def generate_answer (question : List Char) (context_chunks : List Doc)
    (llm : Option LLM) (seed : Nat) :
    List Char × List (List Char × GenConfig) :=
  match llm with
  | none => (notInitializedAnswer, [])
  | some f =>
    if context_chunks.isEmpty then (insufficientAnswer, [])
    else
      let context_text :=
        List.intercalate "\n\n".data (context_chunks.map (fun d => d.page_content))
      let prompt := formatted_prompt context_text question
      match f prompt genCfg seed with
      | Except.ok t => (t, [(prompt, genCfg)])
      | Except.error _ => (genErrorAnswer, [(prompt, genCfg)])

/-- `retrieve_chunks` from `src/rag_pipeline.py` (lines 74-96): an absent
store yields `[]`; a raising `similarity_search` is caught and yields
`[]`; otherwise the search result is passed through. -/
def retrieve_chunks (question : List Char) (db : Option DB) (k : Nat) :
    List Doc :=
  match db with
  | none => []
  | some d =>
    match d.search question k with
    | Except.ok docs => docs
    | Except.error _ => []

/-- `run_rag_pipeline` from `src/rag_pipeline.py` (lines 140-146):
retrieve, generate, return the answer paired with the retrieved
documents. -/
def run_rag_pipeline (question : List Char) (db : Option DB)
    (llm : Option LLM) (seed k : Nat) :
    (List Char × List (List Char × GenConfig)) × List Doc :=
  let retrieved_docs := retrieve_chunks question db k
  (generate_answer question retrieved_docs llm seed, retrieved_docs)

/-- Insert a document into a list kept sorted by descending key. -/
def insertDesc (key : Doc → Int) (d : Doc) : List Doc → List Doc
  | [] => [d]
  | e :: es => if key d ≤ key e then e :: insertDesc key d es else d :: e :: es

/-- Sort documents by descending key (insertion sort). -/
def sortDesc (key : Doc → Int) : List Doc → List Doc
  | [] => []
  | d :: ds => insertDesc key d (sortDesc key ds)

/-- Modelled from the spec: the FAISS `similarity_search` consumed by
`retrieve_chunks` is external library code; per the spec's Retriever
contract it returns the stored entries ordered by descending similarity
to the query, truncated to `k`, and never raises.  `sim q d` is the
similarity score of stored document `d` against query `q`. -/
def mkDB (sim : List Char → Doc → Int) (entries : List Doc) : DB :=
  ⟨fun q k => Except.ok ((sortDesc (sim q) entries).take k)⟩

/-- Worker for `chunkList`; the fuel starts at the text length and each
recursive step drops `step ≥ 1` characters, so the fuel never runs out. -/
def chunkGo (size step : Nat) : Nat → List Char → List (List Char)
  | 0, s => [s]
  | fuel + 1, s =>
    if s.length ≤ size then [s]
    else s.take size :: chunkGo size step fuel (s.drop step)

/-- Modelled from the spec: the character splitter used by
`run_embedding_and_indexing` is the external
`RecursiveCharacterTextSplitter`; per the spec's Chunk-and-Embed
contract, chunking slides a window of `size` characters with stride
`size - ov`, so consecutive chunks share exactly `ov` characters and a
narrative no longer than `size` yields itself as the only chunk. -/
def chunkList (size ov : Nat) (s : List Char) : List (List Char) :=
  chunkGo size (size - ov) s.length s

/-- Undo the overlap: keep the first chunk whole and drop the first `ov`
characters of every later chunk, then concatenate. -/
def reassemble (ov : Nat) : List (List Char) → List Char
  | [] => []
  | c :: cs => c ++ (cs.map (fun d => d.drop ov)).flatten

/-- Check that every pair of consecutive chunks agrees on an overlap of
exactly `ov` characters. -/
def overlapOk (ov : Nat) : List (List Char) → Bool
  | [] => true
  | [_] => true
  | c :: c' :: rest =>
    decide (c.drop (c.length - ov) = c'.take ov) && overlapOk ov (c' :: rest)

/-- The narrative of the spec's end-to-end scenario 1. -/
def narrative1 : List Char :=
  "I am writing to file a complaint my credit card interest rate was increased without notice".data

/-- The boilerplate phrase the spec's scenario 1 expects the cleaned
narrative not to contain. -/
def boilerPhrase : List Char := "i am writing to file a complaint".data

/-! ### Helper lemmas -/

theorem chunkGo_ne_nil (size step fuel : Nat) (s : List Char) :
    chunkGo size step fuel s ≠ [] := by
  cases fuel with
  | zero => simp [chunkGo]
  | succ n =>
    unfold chunkGo
    split <;> simp

theorem chunkGo_chunk_length (size step : Nat) (hstep : 0 < step) :
    ∀ fuel s, s.length ≤ fuel →
      ∀ c ∈ chunkGo size step fuel s, c.length ≤ size := by
  intro fuel
  induction fuel with
  | zero =>
    intro s hs c hc
    simp [chunkGo] at hc
    subst hc
    omega
  | succ n ih =>
    intro s hs c hc
    unfold chunkGo at hc
    by_cases hle : s.length ≤ size
    · rw [if_pos hle] at hc
      simp at hc
      subst hc
      exact hle
    · rw [if_neg hle] at hc
      rcases List.mem_cons.mp hc with h | h
      · subst h
        rw [List.length_take]
        omega
      · refine ih (s.drop step) ?_ c h
        rw [List.length_drop]
        omega

theorem chunkGo_headI (size step fuel : Nat) (s : List Char)
    (hs : s.length ≤ fuel) :
    (chunkGo size step fuel s).headI = s.take size := by
  cases fuel with
  | zero =>
    have h0 : s = [] := by
      cases s with
      | nil => rfl
      | cons a as => simp at hs
    subst h0
    simp [chunkGo]
  | succ n =>
    unfold chunkGo
    by_cases hle : s.length ≤ size
    · rw [if_pos hle]
      simp [List.take_of_length_le hle]
    · rw [if_neg hle]
      rfl

theorem chunkGo_drop_flatten (size step ov : Nat) (hstep : 0 < step)
    (hsum : step + ov = size) :
    ∀ fuel s, s.length ≤ fuel →
      ((chunkGo size step fuel s).map (fun c => c.drop ov)).flatten
        = s.drop ov := by
  intro fuel
  induction fuel with
  | zero =>
    intro s hs
    have h0 : s = [] := by
      cases s with
      | nil => rfl
      | cons a as => simp at hs
    subst h0
    simp [chunkGo]
  | succ n ih =>
    intro s hs
    unfold chunkGo
    by_cases hle : s.length ≤ size
    · rw [if_pos hle]
      simp
    · rw [if_neg hle]
      simp only [List.map_cons, List.flatten_cons]
      rw [ih (s.drop step) (by rw [List.length_drop]; omega)]
      rw [List.drop_drop, hsum, List.drop_take]
      have hso : size - ov = step := by omega
      rw [hso]
      have happ := List.take_append_drop step (s.drop ov)
      rw [List.drop_drop] at happ
      have hvs : ov + step = size := by omega
      rw [hvs] at happ
      exact happ

theorem reassemble_chunkGo (size step ov : Nat) (hstep : 0 < step)
    (hsum : step + ov = size) (fuel : Nat) (s : List Char)
    (hs : s.length ≤ fuel) :
    reassemble ov (chunkGo size step fuel s) = s := by
  cases fuel with
  | zero =>
    have h0 : s = [] := by
      cases s with
      | nil => rfl
      | cons a as => simp at hs
    subst h0
    simp [chunkGo, reassemble]
  | succ n =>
    unfold chunkGo
    by_cases hle : s.length ≤ size
    · rw [if_pos hle]
      simp [reassemble]
    · rw [if_neg hle]
      show s.take size
          ++ ((chunkGo size step n (s.drop step)).map (fun d => d.drop ov)).flatten = s
      rw [chunkGo_drop_flatten size step ov hstep hsum n (s.drop step)
            (by rw [List.length_drop]; omega)]
      rw [List.drop_drop, hsum]
      exact List.take_append_drop size s

theorem overlapOk_chunkGo (size step ov : Nat) (hstep : 0 < step)
    (hsum : step + ov = size) :
    ∀ fuel s, s.length ≤ fuel →
      overlapOk ov (chunkGo size step fuel s) = true := by
  intro fuel
  induction fuel with
  | zero =>
    intro s hs
    simp [chunkGo, overlapOk]
  | succ n ih =>
    intro s hs
    unfold chunkGo
    by_cases hle : s.length ≤ size
    · rw [if_pos hle]
      simp [overlapOk]
    · rw [if_neg hle]
      have hdrop_le : (s.drop step).length ≤ n := by
        rw [List.length_drop]; omega
      rcases hcs : chunkGo size step n (s.drop step) with _ | ⟨h, t⟩
      · exact absurd hcs (chunkGo_ne_nil _ _ _ _)
      · have hh : h = (s.drop step).take size := by
          have hhead := chunkGo_headI size step n (s.drop step) hdrop_le
          rw [hcs] at hhead
          simpa using hhead
        have htail : overlapOk ov (h :: t) = true := by
          have hholds := ih (s.drop step) hdrop_le
          rw [hcs] at hholds
          exact hholds
        have hgoal : overlapOk ov (s.take size :: h :: t)
            = (decide ((s.take size).drop ((s.take size).length - ov) = h.take ov)
                && overlapOk ov (h :: t)) := rfl
        rw [hgoal, htail, Bool.and_true, decide_eq_true_iff]
        subst hh
        rw [List.length_take]
        have hmin : size ⊓ s.length = size := Nat.min_eq_left (by omega)
        rw [hmin, List.take_take]
        have hmin2 : ov ⊓ size = ov := Nat.min_eq_left (by omega)
        rw [hmin2]
        have h1 : size - ov = step := by omega
        rw [h1, List.drop_take]
        have h2 : size - step = ov := by omega
        rw [h2]

theorem length_insertDesc (key : Doc → Int) (d : Doc) (l : List Doc) :
    (insertDesc key d l).length = l.length + 1 := by
  induction l with
  | nil => rfl
  | cons e es ih =>
    simp only [insertDesc]
    split
    · simp [ih]
    · simp

theorem length_sortDesc (key : Doc → Int) (l : List Doc) :
    (sortDesc key l).length = l.length := by
  induction l with
  | nil => rfl
  | cons d ds ih =>
    simp [sortDesc, length_insertDesc, ih]

theorem mem_insertDesc (key : Doc → Int) (d x : Doc) (l : List Doc) :
    x ∈ insertDesc key d l ↔ x = d ∨ x ∈ l := by
  induction l with
  | nil => simp [insertDesc]
  | cons e es ih =>
    simp only [insertDesc]
    split
    · simp only [List.mem_cons, ih]
      tauto
    · simp only [List.mem_cons]

theorem pairwise_insertDesc (key : Doc → Int) (d : Doc) (l : List Doc)
    (h : l.Pairwise (fun a b => key b ≤ key a)) :
    (insertDesc key d l).Pairwise (fun a b => key b ≤ key a) := by
  induction l with
  | nil => simp [insertDesc]
  | cons e es ih =>
    rw [List.pairwise_cons] at h
    simp only [insertDesc]
    by_cases hle : key d ≤ key e
    · rw [if_pos hle, List.pairwise_cons]
      constructor
      · intro x hx
        rcases (mem_insertDesc key d x es).mp hx with hx | hx
        · subst hx
          exact hle
        · exact h.1 x hx
      · exact ih h.2
    · rw [if_neg hle, List.pairwise_cons]
      constructor
      · intro x hx
        rcases List.mem_cons.mp hx with hx | hx
        · subst hx
          omega
        · have := h.1 x hx
          omega
      · rw [List.pairwise_cons]
        exact h

theorem pairwise_sortDesc (key : Doc → Int) (l : List Doc) :
    (sortDesc key l).Pairwise (fun a b => key b ≤ key a) := by
  induction l with
  | nil => simp [sortDesc]
  | cons d ds ih => exact pairwise_insertDesc key d (sortDesc key ds) ih

theorem generate_answer_cons (q : List Char) (c : Doc) (cs : List Doc)
    (f : LLM) (seed : Nat) :
    generate_answer q (c :: cs) (some f) seed =
      match f (formatted_prompt (List.intercalate "\n\n".data
          ((c :: cs).map (fun d => d.page_content))) q) genCfg seed with
      | Except.ok t =>
          (t, [(formatted_prompt (List.intercalate "\n\n".data
              ((c :: cs).map (fun d => d.page_content))) q, genCfg)])
      | Except.error _ =>
          (genErrorAnswer, [(formatted_prompt (List.intercalate "\n\n".data
              ((c :: cs).map (fun d => d.page_content))) q, genCfg)]) := rfl

/-! ### Claim theorems -/

/-- C1: for every query string, calling `generate_answer` with an empty
chunk list and an initialized generation pipeline never invokes the
underlying model (the call log stays empty) and returns the fixed
insufficient-information answer. -/
theorem empty_context_short_circuit (q : List Char) (f : LLM) (seed : Nat) :
    generate_answer q [] (some f) seed = (insufficientAnswer, []) := rfl

/-- C2 counterexample: `map_to_target_product` is not a function of the
raw category string alone — on the raw category "Personal loan" the
narrative changes the mapped category. -/
theorem category_mapping_counterexample :
    map_to_target_product "Personal loan".data "i paid with bnpl".data
      ≠ map_to_target_product "Personal loan".data "late fees".data := by
  decide

/-- C2 (amended): `filter_products` maps every raw category string
deterministically to one of the fixed standard categories or exclusion;
`map_to_target_product` likewise always yields a fixed standard category
or exclusion, and its result is independent of the narrative except when
the lower-cased category misses the credit-card triggers but hits a
personal-loan trigger (where the narrative chooses between Buy Now, Pay
Later and Personal loan). -/
theorem category_mapping_amended (p n n1 n2 : List Char) :
    filter_products p
        ∈ (none : Option (List Char)) :: TARGET_PRODUCTS.map (fun t => some t.1)
    ∧ map_to_target_product p n
        ∈ (none : Option (List Char)) :: standardCategories.map some
    ∧ (narrativeSensitive p = false →
        map_to_target_product p n1 = map_to_target_product p n2) := by
  refine ⟨?_, ?_, ?_⟩
  · rcases hf : TARGET_PRODUCTS.find?
        (fun t => t.2.any (fun v => containsB v (lowerL p))) with _ | t
    · simp [filter_products, hf]
    · have hmem := List.mem_of_find?_eq_some hf
      simp only [filter_products, hf, Option.map_some']
      exact List.mem_cons_of_mem _ (List.mem_map_of_mem _ hmem)
  · unfold map_to_target_product
    split_ifs <;> decide
  · intro h
    unfold map_to_target_product
    cases hcc : ccMatch (lowerL p) with
    | true => simp [hcc]
    | false =>
      have hl : loanMatch (lowerL p) = false := by
        unfold narrativeSensitive at h
        rw [hcc] at h
        simpa using h
      simp [hcc, hl]

/-- C2 witness: on the raw category "Mortgage" the mapping is
narrative-insensitive, so the amended independence clause applies. -/
theorem category_mapping_amended_witness :
    narrativeSensitive "Mortgage".data = false
    ∧ map_to_target_product "Mortgage".data "a".data
        = map_to_target_product "Mortgage".data "b".data :=
  ⟨by decide,
    (category_mapping_amended "Mortgage".data "x".data "a".data "b".data).2.2
      (by decide)⟩

/-- C3: with `ov < size`, the chunker yields a non-empty chunk sequence,
every chunk has at most `size` characters, consecutive chunks overlap by
exactly `ov` characters, removing the overlaps and concatenating
reconstructs the narrative exactly, and a narrative shorter than `size`
yields exactly one chunk equal to the narrative itself. -/
theorem chunking_spec (size ov : Nat) (hov : ov < size) (s : List Char) :
    chunkList size ov s ≠ []
    ∧ (∀ c ∈ chunkList size ov s, c.length ≤ size)
    ∧ overlapOk ov (chunkList size ov s) = true
    ∧ reassemble ov (chunkList size ov s) = s
    ∧ (s.length < size → chunkList size ov s = [s]) := by
  have hstep : 0 < size - ov := by omega
  have hsum : (size - ov) + ov = size := by omega
  refine ⟨chunkGo_ne_nil _ _ _ _,
    chunkGo_chunk_length size (size - ov) hstep s.length s le_rfl,
    overlapOk_chunkGo size (size - ov) ov hstep hsum s.length s le_rfl,
    reassemble_chunkGo size (size - ov) ov hstep hsum s.length s le_rfl,
    ?_⟩
  intro hlt
  unfold chunkList
  cases hl : s.length with
  | zero => simp [chunkGo]
  | succ m =>
    unfold chunkGo
    rw [if_pos (by omega)]

/-- C3 witness: the chunker at size 5, overlap 2 on a concrete 8-character
narrative reconstructs it exactly. -/
theorem chunking_spec_witness :
    2 < 5 ∧ reassemble 2 (chunkList 5 2 "abcdefgh".data) = "abcdefgh".data :=
  ⟨by decide, (chunking_spec 5 2 (by decide) "abcdefgh".data).2.2.2.1⟩

/-- C4: for every query and every `k`, `retrieve_chunks` over the
spec-modelled similarity index returns exactly `min k size` results
ordered by descending similarity, and returns the empty list — never an
error — on an absent store and on an empty index. -/
theorem retrieve_topk_spec (sim : List Char → Doc → Int) (entries : List Doc)
    (q : List Char) (k : Nat) :
    (retrieve_chunks q (some (mkDB sim entries)) k).length = min k entries.length
    ∧ (retrieve_chunks q (some (mkDB sim entries)) k).Pairwise
        (fun a b => sim q b ≤ sim q a)
    ∧ retrieve_chunks q none k = []
    ∧ retrieve_chunks q (some (mkDB sim [])) k = [] := by
  have hred : retrieve_chunks q (some (mkDB sim entries)) k
      = (sortDesc (sim q) entries).take k := rfl
  refine ⟨?_, ?_, rfl, ?_⟩
  · rw [hred, List.length_take, length_sortDesc]
  · rw [hred]
    exact List.Pairwise.sublist (List.take_sublist _ _) (pairwise_sortDesc _ _)
  · show (sortDesc (sim q) []).take k = []
    simp [sortDesc]

/-- C5 counterexample: an 11-word narrative of 21 raw characters has a
cleaned word count inside the accepted range and a mapped category, yet
`run_preprocessing`'s filter drops it because it also requires the raw
stripped narrative to exceed 30 characters. -/
theorem length_filter_counterexample :
    map_to_target_product "Credit card".data "a b c d e f g h i j k".data ≠ none
    ∧ wordCount (clean_text_pp "a b c d e f g h i j k".data) = 11
    ∧ processRow_pre "Credit card".data "a b c d e f g h i j k".data = none := by
  decide

/-- C5 (amended): `process_complaints` retains a category-matched record
exactly when the cleaned word count lies strictly between 10 and 1000;
`run_preprocessing` additionally requires the raw stripped narrative to
exceed 30 characters; in both pipelines a cleaned word count of 5 is
excluded regardless of category match. -/
theorem length_filter_amended (cleaner : List Char → List Char)
    (p n : List Char) :
    (processRow_mod cleaner p n ≠ none ↔
      (filter_products p ≠ none
        ∧ 10 < wordCount (cleaner n) ∧ wordCount (cleaner n) < 1000))
    ∧ (wordCount (cleaner n) = 5 → processRow_mod cleaner p n = none)
    ∧ (processRow_pre p n ≠ none ↔
      (map_to_target_product p n ≠ none ∧ 30 < (stripL n).length
        ∧ 10 < wordCount (clean_text_pp n)
        ∧ wordCount (clean_text_pp n) < 1000))
    ∧ (wordCount (clean_text_pp n) = 5 → processRow_pre p n = none) := by
  refine ⟨?_, ?_, ?_, ?_⟩
  · unfold processRow_mod
    cases hf : filter_products p with
    | none => simp
    | some prod =>
      split_ifs with h
      · simp [h]
      · simp [h]
  · intro h5
    unfold processRow_mod
    cases hf : filter_products p with
    | none => rfl
    | some prod =>
      show (if 10 < wordCount (cleaner n) ∧ wordCount (cleaner n) < 1000
            then some (prod, cleaner n) else none) = none
      rw [if_neg (by omega)]
  · unfold processRow_pre
    cases hf : map_to_target_product p n with
    | none => simp
    | some prod =>
      split_ifs with h
      · simp [h]
      · simp [h]
  · intro h5
    unfold processRow_pre
    cases hf : map_to_target_product p n with
    | none => rfl
    | some prod =>
      show (if 30 < (stripL n).length ∧ 10 < wordCount (clean_text_pp n)
                ∧ wordCount (clean_text_pp n) < 1000
            then some (prod, clean_text_pp n) else none) = none
      rw [if_neg (by omega)]

/-- C5 witness: a record whose cleaned word count is 5 is dropped by the
`process_complaints` filter even though its category matches. -/
theorem length_filter_amended_witness :
    wordCount ((fun s => s) "a b c d e".data) = 5
    ∧ processRow_mod (fun s => s) "Credit card".data "a b c d e".data = none :=
  ⟨by decide,
    (length_filter_amended (fun s => s) "Credit card".data "a b c d e".data).2.1
      (by decide)⟩

/-- C6 counterexample: on the scenario-1 narrative, `preprocessing.py`'s
cleaner leaves the boilerplate phrase in place, while `prep.py`'s cleaner
removes it but leaves a word count of 9, not at least 11. -/
theorem boilerplate_scenario_counterexample :
    containsB boilerPhrase (clean_text_pp narrative1) = true
    ∧ wordCount (clean_text_prep narrative1) = 9 := by
  decide

/-- C6 (amended): `prep.py`'s `clean_text` removes the boilerplate phrase
from the scenario-1 narrative, producing a 9-word non-empty cleaned text
(retained by `prep.py`'s own non-emptiness filter, though a >10-word
filter would drop it), while `preprocessing.py`'s `clean_text` removes no
boilerplate, leaving a 16-word cleaned text that still contains the
phrase and passes the >10-word filter. -/
theorem boilerplate_scenario_amended :
    clean_text_prep narrative1
        = "my credit card interest rate was increased without notice".data
    ∧ containsB boilerPhrase (clean_text_prep narrative1) = false
    ∧ wordCount (clean_text_prep narrative1) = 9
    ∧ 0 < (clean_text_prep narrative1).length
    ∧ containsB boilerPhrase (clean_text_pp narrative1) = true
    ∧ wordCount (clean_text_pp narrative1) = 16 := by
  decide

/-- C7: `generate_answer` invokes the model only with `do_sample = false`
and `max_new_tokens = 200`, and for a model whose output is
seed-independent under deterministic decoding, two runs on identical
(query, chunks) inputs yield identical answers. -/
theorem generation_deterministic (q : List Char) (chunks : List Doc) (f : LLM)
    (s1 s2 : Nat)
    (hdet : ∀ p cfg s s', cfg.do_sample = false → f p cfg s = f p cfg s') :
    generate_answer q chunks (some f) s1 = generate_answer q chunks (some f) s2
    ∧ ∀ call ∈ (generate_answer q chunks (some f) s1).2,
        call.2.do_sample = false ∧ call.2.max_new_tokens = 200 := by
  cases chunks with
  | nil =>
    refine ⟨rfl, ?_⟩
    intro call hcall
    simp [generate_answer] at hcall
  | cons c cs =>
    constructor
    · rw [generate_answer_cons, generate_answer_cons,
        hdet (formatted_prompt (List.intercalate "\n\n".data
          ((c :: cs).map (fun d => d.page_content))) q) genCfg s1 s2 rfl]
    · intro call hcall
      rw [generate_answer_cons] at hcall
      cases hres : f (formatted_prompt (List.intercalate "\n\n".data
          ((c :: cs).map (fun d => d.page_content))) q) genCfg s1 with
      | ok t =>
        rw [hres] at hcall
        simp at hcall
        subst hcall
        exact ⟨rfl, rfl⟩
      | error e =>
        rw [hres] at hcall
        simp at hcall
        subst hcall
        exact ⟨rfl, rfl⟩

/-- C7 witness: two runs with different seeds on a concrete
seed-independent model and a concrete chunk list agree. -/
theorem generation_deterministic_witness :
    generate_answer "q".data [⟨"t".data, "1".data, "c".data, 1⟩]
        (some (fun p _ _ => Except.ok p)) 3
      = generate_answer "q".data [⟨"t".data, "1".data, "c".data, 1⟩]
        (some (fun p _ _ => Except.ok p)) 7 :=
  (generation_deterministic "q".data [⟨"t".data, "1".data, "c".data, 1⟩]
    (fun p _ _ => Except.ok p) 3 7 (fun _ _ _ _ _ => rfl)).1

/-- C8: for every query and non-empty chunk list, if the model call
raises, `generate_answer` returns the fixed user-safe error message: the
raw failure value never reaches the caller. -/
theorem generation_error_fallback (q : List Char) (c : Doc) (cs : List Doc)
    (f : LLM) (seed : Nat)
    (hfail : ∀ p cfg s, ∃ e, f p cfg s = Except.error e) :
    (generate_answer q (c :: cs) (some f) seed).1 = genErrorAnswer := by
  rw [generate_answer_cons]
  obtain ⟨e, he⟩ := hfail (formatted_prompt (List.intercalate "\n\n".data
    ((c :: cs).map (fun d => d.page_content))) q) genCfg seed
  rw [he]

/-- C8 witness: a model that raises its prompt back as the error still
yields the fixed error answer. -/
theorem generation_error_fallback_witness :
    (generate_answer "q".data [⟨"t".data, "1".data, "c".data, 1⟩]
      (some (fun p _ _ => Except.error p)) 0).1 = genErrorAnswer :=
  generation_error_fallback "q".data ⟨"t".data, "1".data, "c".data, 1⟩ []
    (fun p _ _ => Except.error p) 0 (fun p _ _ => ⟨p, rfl⟩)

/-- C9: when the store is absent or its similarity search always raises,
`retrieve_chunks` returns the empty list and `run_rag_pipeline` returns
the fixed insufficient-information answer with an empty source list —
exactly the output of a genuinely empty retrieval. -/
theorem retrieval_failure_indistinguishable (q : List Char) (f : LLM)
    (seed k : Nat) (d : DB)
    (hfail : ∀ q' k', ∃ e, d.search q' k' = Except.error e) :
    retrieve_chunks q (some d) k = []
    ∧ run_rag_pipeline q (some d) (some f) seed k = ((insufficientAnswer, []), [])
    ∧ run_rag_pipeline q none (some f) seed k = ((insufficientAnswer, []), []) := by
  obtain ⟨e, he⟩ := hfail q k
  have h1 : retrieve_chunks q (some d) k = [] := by
    show (match d.search q k with
          | Except.ok docs => docs
          | Except.error _ => []) = []
    rw [he]
  refine ⟨h1, ?_, rfl⟩
  have h2 : run_rag_pipeline q (some d) (some f) seed k
      = (generate_answer q (retrieve_chunks q (some d) k) (some f) seed,
         retrieve_chunks q (some d) k) := rfl
  rw [h2, h1]
  rfl

/-- C9 witness: a store whose search always raises yields an empty
retrieval result. -/
theorem retrieval_failure_indistinguishable_witness :
    retrieve_chunks "q".data (some ⟨fun _ _ => Except.error "e".data⟩) 5 = [] :=
  (retrieval_failure_indistinguishable "q".data (fun p _ _ => Except.ok p) 0 5
    ⟨fun _ _ => Except.error "e".data⟩ (fun _ _ => ⟨"e".data, rfl⟩)).1

/-- C10: with an absent generation pipeline, `generate_answer` returns the
fixed not-initialized answer for every chunk list — including the empty
one — and never the insufficient-information answer. -/
theorem uninitialized_generator_precedence (q : List Char) (chunks : List Doc)
    (seed : Nat) :
    generate_answer q chunks none seed = (notInitializedAnswer, [])
    ∧ (generate_answer q chunks none seed).1 ≠ insufficientAnswer := by
  refine ⟨rfl, ?_⟩
  show notInitializedAnswer ≠ insufficientAnswer
  decide

/-- C10 witness: with the pipeline absent and the chunk list empty, the
answer is the not-initialized string, not the insufficient-information
string. -/
theorem uninitialized_generator_precedence_witness :
    generate_answer "q".data [] none 0 = (notInitializedAnswer, [])
    ∧ (generate_answer "q".data [] none 0).1 ≠ insufficientAnswer :=
  uninitialized_generator_precedence "q".data [] 0

end ComplaintRag
